import Mathlib

/-!
# Verification of the QingYuan search-orchestration core

A shallow embedding, in Lean 4, of the pure computational core of
`web_search.py` (classes `BaseSearch`, `WebSearch`, `ImageSearch`,
`VideoSearch`, `ResourceSearch`, `UnifiedSearch`).  Strings are modelled as
Lean `String` (sequences of Unicode scalar values, matching Python `str`),
byte sequences as `List Nat`, and the effectful boundary (network fetches,
thread-pool futures) as explicit input lists: a per-site task outcome is an
`Except String (List SR)` value, mirroring `future.result()` either
returning a result list or raising.

Python standard-library helpers used by the source (`str.strip`,
`str.lower`, `urllib.parse.urlsplit/urlparse/parse_qs/unquote`,
`base64.urlsafe_b64decode`, `bytes.decode('utf-8')`) are modelled
explicitly below, faithful to CPython semantics on the inputs the program
feeds them.
-/

namespace QingYuan

/-! ## Python string primitives -/

/-- Python whitespace characters stripped by `str.strip()` (the ASCII ones;
the program's inputs do not use exotic Unicode whitespace). -/
def pyIsSpace (c : Char) : Bool :=
  c = ' ' || c = '\t' || c = '\n' || c = '\r' || c = '\x0b' || c = '\x0c'

/-- Model of `str.strip()` on a character list. -/
def pyStripList (l : List Char) : List Char :=
  ((l.dropWhile pyIsSpace).reverse.dropWhile pyIsSpace).reverse

/-- Model of `str.strip()`. -/
def pyStrip (s : String) : String := (pyStripList s.data).asString

/-- Model of `str.lstrip()` restricted to a character predicate. -/
def pyLStripWith (p : Char → Bool) (s : String) : String :=
  (s.data.dropWhile p).asString

/-- ASCII lower-casing of one character (`str.lower` restricted to the
ASCII range; all characters the program compares case-insensitively are
ASCII, CJK characters are unaffected by `lower`). -/
def pyLowerChar (c : Char) : Char :=
  if 65 ≤ c.toNat && c.toNat ≤ 90 then Char.ofNat (c.toNat + 32) else c

/-- Model of `str.lower()`. -/
def pyLower (s : String) : String := (s.data.map pyLowerChar).asString

/-- List prefix test. -/
def listStartsWith [DecidableEq α] : List α → List α → Bool
  | [], _ => true
  | _ :: _, [] => false
  | a :: as, b :: bs => a = b && listStartsWith as bs

/-- List contiguous-infix test (Python `sub in s`). -/
def listContainsSub [DecidableEq α] (needle : List α) : List α → Bool
  | [] => listStartsWith needle []
  | b :: bs => listStartsWith needle (b :: bs) || listContainsSub needle bs

/-- Python `prefix ∈ s`-style `startswith`. -/
def pyStartsWith (s pre : String) : Bool := listStartsWith pre.data s.data

/-- Python `s.endswith(suffix)`. -/
def pyEndsWith (s suf : String) : Bool :=
  listStartsWith suf.data.reverse s.data.reverse

/-- Python `sub in s` (contiguous substring). -/
def pyIn (sub s : String) : Bool := listContainsSub sub.data s.data

/-- Python `s.find(c)` for a single character: index of first occurrence
or `-1`. -/
def pyFindChar (s : String) (c : Char) : Int :=
  match s.data.indexOf? c with
  | some i => (i : Int)
  | none => -1

/-- Python `s.rfind(c)` for a single character: index of last occurrence
or `-1`. -/
def pyRFindChar (s : String) (c : Char) : Int :=
  match s.data.reverse.indexOf? c with
  | some i => (s.data.length - 1 - i : Int)
  | none => -1

/-- Python slice `s[:n]` for nonnegative `n`. -/
def pyTake (s : String) (n : Nat) : String := (s.data.take n).asString

/-- Python slice `s[n:]` for nonnegative `n`. -/
def pyDrop (s : String) (n : Nat) : String := (s.data.drop n).asString

/-- Python slice `s[-n:]` (the last `n` characters; the whole string when
it is shorter). -/
def pyTakeRight (s : String) (n : Nat) : String :=
  (s.data.drop (s.data.length - n)).asString

/-- Python `s.split(sep, 1)[0]` followed by keeping the remainder: split at
the first occurrence of character `sep`, `(before, some after)` when
present. -/
def pySplitFirst (s : String) (sep : Char) : String × Option String :=
  match s.data.indexOf? sep with
  | some i => ((s.data.take i).asString, some ((s.data.drop (i + 1)).asString))
  | none => (s, none)

/-- Model of `str.split(sep)` on a character list. -/
def splitListAll (sep : Char) : List Char → List (List Char)
  | [] => [[]]
  | c :: cs =>
    if c = sep then [] :: splitListAll sep cs
    else
      match splitListAll sep cs with
      | [] => [[c]]
      | h :: t => (c :: h) :: t

/-- Python `s.split(sep)` on a single-character separator. -/
def pySplitAll (s : String) (sep : Char) : List String :=
  (splitListAll sep s.data).map List.asString

/-- Core loop of Python's non-overlapping `s.count(sub)`: after a match,
the remaining `skip` elements of the pattern are consumed without being
matched again. -/
def listCountSubGo [DecidableEq α] (needle : List α) : List α → Nat → Nat
  | [], _ => 0
  | b :: bs, skip =>
    if skip > 0 then listCountSubGo needle bs (skip - 1)
    else if needle ≠ [] && listStartsWith needle (b :: bs) then
      1 + listCountSubGo needle bs (needle.length - 1)
    else
      listCountSubGo needle bs 0

/-- Python non-overlapping `s.count(sub)` for a non-empty pattern (the
program only counts non-empty queries). -/
def listCountSub [DecidableEq α] (needle l : List α) : Nat :=
  listCountSubGo needle l 0

/-- Model of `str.count` (non-overlapping occurrences). -/
def pyCount (s sub : String) : Nat := listCountSub sub.data s.data

/-! ## Text normalization and title cleaning (`BaseSearch`, `WebSearch`) -/

/-- Star-glyph variants unified to `*` by `_normalize_text`
(`re.sub(r'[＊*·•·]', '*', text)`): U+FF0A, `*`, U+00B7, U+2022. -/
def starVariants : List Char := ['＊', '*', '·', '•']

/-- Colon variants unified to `:` (`re.sub(r'[：:]', ':', text)`). -/
def colonVariants : List Char := ['：', ':']

/-- Bracket characters removed (`re.sub(r'[（）()]', '', text)`). -/
def bracketChars : List Char := ['（', '）', '(', ')']

/-- Punctuation removed (`re.sub(r'[，,。.]', '', text)`). -/
def punctChars : List Char := ['，', ',', '。', '.']

/-- Model of `WebSearch._normalize_text` / `ResourceSearch._normalize_text`
(identical bodies): unify star and colon variants, strip brackets and the
enumerated punctuation, then `strip()`. -/
def normalizeText (text : String) : String :=
  pyStrip ((text.data.filterMap fun c =>
    if c ∈ starVariants then some '*'
    else if c ∈ colonVariants then some ':'
    else if c ∈ bracketChars then none
    else if c ∈ punctChars then none
    else some c)).asString

/-- Model of `BaseSearch._filename_from_url`: `re.search(r"/([^/?#]+)(?:\?|#|$)", url)`,
the first `/`-delimited segment that runs up to `?`, `#` or the end of the
string; the whole URL when the pattern does not match. -/
def filenameFromUrlAux : List Char → Option (List Char)
  | [] => none
  | c :: cs =>
    if c = '/' then
      let seg := cs.takeWhile fun d => d ≠ '/' && d ≠ '?' && d ≠ '#'
      let rest := cs.drop seg.length
      if seg ≠ [] && (rest = [] || rest.head? = some '?' || rest.head? = some '#') then
        some seg
      else
        filenameFromUrlAux cs
    else filenameFromUrlAux cs

/-- Model of `BaseSearch._filename_from_url`. -/
def filenameFromUrl (url : String) : String :=
  match filenameFromUrlAux url.data with
  | some seg => seg.asString
  | none => url

/-- The prefixes removed by `BaseSearch._clean_title`. -/
def titlePrefixesToRemove : List String :=
  ["首页", "主页", "网站首页", "Home", "Index",
   "搜索", "Search", "结果", "Results",
   "登录", "Login", "注册", "Register",
   "关于", "About", "帮助", "Help"]

/-- Core loop of `str.split(sep)` for a multi-character separator: after
a separator match, the remaining `skip` separator elements are consumed
silently. -/
def splitOnSubGo [DecidableEq α] (sep : List α) : List α → Nat → List (List α)
  | [], _ => [[]]
  | c :: cs, skip =>
    if skip > 0 then splitOnSubGo sep cs (skip - 1)
    else if sep ≠ [] && listStartsWith sep (c :: cs) then
      [] :: splitOnSubGo sep cs (sep.length - 1)
    else
      match splitOnSubGo sep cs 0 with
      | [] => [[c]]
      | h :: t => (c :: h) :: t

/-- Model of `str.split(sep)` for a non-empty multi-character separator. -/
def splitOnSub [DecidableEq α] (sep l : List α) : List (List α) :=
  splitOnSubGo sep l 0

/-- Model of `BaseSearch._clean_title`: strip, keep the last ` › `-separated
segment, cut at an embedded `http`, replace bare-domain titles by the
URL's file name, strip the enumerated navigational prefixes, and cap at
100 characters.  The source's third argument `site` is unused there and
omitted here. -/
def cleanTitle (title href : String) : String :=
  if title = "" then ""
  else
    let t := pyStrip title
    let t := if pyIn " › " t then
               pyStrip ((splitOnSub " › ".data t.data).getLastD []).asString
             else t
    let t := if pyIn "http" t then
               pyStrip ((splitOnSub "http".data t.data).headD []).asString
             else t
    let t := if pyEndsWith t ".com" || pyEndsWith t ".cn" ||
                pyEndsWith t ".net" || pyEndsWith t ".org" then
               filenameFromUrl href
             else t
    let t := titlePrefixesToRemove.foldl
      (fun acc p =>
        if pyStartsWith acc p then pyStrip (pyDrop acc p.data.length) else acc) t
    if t.data.length > 100 then (pyTake t 100) ++ "..." else t

/-! ## Relevance scoring (`WebSearch`, `ResourceSearch`) -/

/-- The distinct characters of a normalized text with spaces removed:
`set(normalized.replace(' ', ''))`. -/
def charSetNoSpace (s : String) : List Char :=
  (s.data.filter fun c => c ≠ ' ').dedup

/-- Model of `len(query_chars & title_chars)` for the space-stripped character
sets. -/
def matchCharCount (normQuery normTitle : String) : Nat :=
  ((charSetNoSpace normQuery).filter fun c => c ∈ charSetNoSpace normTitle).length

/-- The `official_keywords` marker list of
`WebSearch._calculate_relevance_score` (the duplicated `'萌娘百科'` entry
kept as in the source; duplication is irrelevant to `any`). -/
def officialKeywords : List String :=
  ["官网", "官方网站", "official", "homepage", "home page",
   "概念", "介绍", "introduction", "about", "什么是", "what is",
   "定义", "definition", "百科", "wiki", "萌娘百科", "萌娘百科"]

/-- The official/definitional-marker check of
`WebSearch._calculate_relevance_score`: some keyword occurs in the lowered
title or the lowered URL (`+20` is added once thanks to the `break`). -/
def hasOfficialKeyword (titleLower urlLower : String) : Bool :=
  officialKeywords.any fun kw => pyIn kw titleLower || pyIn kw urlLower

/-- Model of `WebSearch._calculate_relevance_score`: base score 1; `+50` per
character shared between the space-stripped normalized query and title
character sets; `+1000` when the normalized query is a substring of the
normalized title; `+20` when the lowered title or URL contains an
official/definitional marker keyword.  Empty title or query short-circuits
to the base score 1. -/
def calculateRelevanceScore (title url query : String) : Int :=
  if title = "" || query = "" then 1
  else
    let titleLower := pyLower title
    let queryLower := pyLower query
    let normalizedQuery := normalizeText queryLower
    let normalizedTitle := normalizeText titleLower
    let matchCount := matchCharCount normalizedQuery normalizedTitle
    let score : Int := 1
    let score := if matchCount > 0 then score + matchCount * 50 else score
    let score := if pyIn normalizedQuery normalizedTitle then score + 1000 else score
    if hasOfficialKeyword titleLower (pyLower url) then score + 20 else score

/-- Modelled from the spec (§4.3, claim C4): the claimed closed form of
the Web-category score, `1 + 50×|charset(norm query) ∩ charset(norm
title)| + 1000·[substring] + 20·[marker keyword]`, stated for every
`(title, url, query)` triple. -/
def webScoreSpecFormula (title url query : String) : Int :=
  let titleLower := pyLower title
  let queryLower := pyLower query
  let normalizedQuery := normalizeText queryLower
  let normalizedTitle := normalizeText titleLower
  1 + (matchCharCount normalizedQuery normalizedTitle : Int) * 50
    + (if pyIn normalizedQuery normalizedTitle then 1000 else 0)
    + (if hasOfficialKeyword titleLower (pyLower url) then 20 else 0)

/-- Model of `WebSearch._is_relevant_content`: `False` on empty title or query,
otherwise `score > 0`. -/
def webIsRelevantContent (title url query : String) : Bool :=
  if title = "" || query = "" then false
  else calculateRelevanceScore title url query > 0

/-- The `irrelevant_keywords` list of
`ResourceSearch._is_relevant_content`. -/
def resourceIrrelevantKeywords : List String :=
  ["登录", "login", "注册", "register", "首页", "home", "关于", "about",
   "联系我们", "contact", "帮助", "help", "隐私", "privacy", "条款", "terms",
   "广告", "ad", "推广", "promotion", "招聘", "job", "招聘信息",
   "新闻", "news", "公告", "notice", "更新", "update", "维护", "maintenance"]

/-- Model of `ResourceSearch._super_loose_match` (and the identical
`WebSearch._super_loose_match`): normalized-substring match, else ≥50%
query-character coverage, else at least one shared character. -/
def superLooseMatch (query title : String) : Bool :=
  let normalizedQuery := normalizeText (pyLower query)
  let normalizedTitle := normalizeText (pyLower title)
  if pyIn normalizedQuery normalizedTitle then true
  else
    let qn := (charSetNoSpace normalizedQuery).length
    let m := matchCharCount normalizedQuery normalizedTitle
    if qn > 0 && 2 * m ≥ qn then true
    else qn > 0 && m > 0

/-- Model of `ResourceSearch._is_relevant_content`: `True` on empty title or query;
hard-reject on any irrelevance keyword in the lowered title; otherwise the
super-loose match. -/
def resourceIsRelevantContent (title url query : String) : Bool :=
  if title = "" || query = "" then true
  else if resourceIrrelevantKeywords.any fun kw => pyIn kw (pyLower title) then false
  else superLooseMatch query title

/-! ## UTF-8 and percent decoding (models of `bytes.decode` and
`urllib.parse.unquote`) -/

/-- UTF-8 encoding of one Unicode scalar value. -/
def utf8EncodeChar (c : Char) : List Nat :=
  let n := c.toNat
  if n < 0x80 then [n]
  else if n < 0x800 then [0xC0 + n / 0x40, 0x80 + n % 0x40]
  else if n < 0x10000 then
    [0xE0 + n / 0x1000, 0x80 + (n / 0x40) % 0x40, 0x80 + n % 0x40]
  else
    [0xF0 + n / 0x40000, 0x80 + (n / 0x1000) % 0x40,
     0x80 + (n / 0x40) % 0x40, 0x80 + n % 0x40]

/-- A UTF-8 continuation byte. -/
def isCont (b : Nat) : Bool := 0x80 ≤ b && b < 0xC0

/-- Strict UTF-8 decoding (`bytes.decode('utf-8')`): rejects stray
continuation bytes, overlong encodings, surrogates and values beyond
U+10FFFF, returning `none` exactly when CPython raises
`UnicodeDecodeError`. -/
def utf8DecodeStrict : List Nat → Option (List Char)
  | [] => some []
  | b :: bs =>
    if b < 0x80 then
      (utf8DecodeStrict bs).map fun cs => Char.ofNat b :: cs
    else if b < 0xC2 then none
    else if b < 0xE0 then
      match bs with
      | b1 :: rest =>
        if isCont b1 then
          (utf8DecodeStrict rest).map fun cs =>
            Char.ofNat ((b - 0xC0) * 0x40 + (b1 - 0x80)) :: cs
        else none
      | [] => none
    else if b < 0xF0 then
      match bs with
      | b1 :: b2 :: rest =>
        if isCont b1 && isCont b2 &&
           !(b = 0xE0 && b1 < 0xA0) && !(b = 0xED && b1 ≥ 0xA0) then
          (utf8DecodeStrict rest).map fun cs =>
            Char.ofNat ((b - 0xE0) * 0x1000 + (b1 - 0x80) * 0x40 + (b2 - 0x80)) :: cs
        else none
      | _ => none
    else if b < 0xF5 then
      match bs with
      | b1 :: b2 :: b3 :: rest =>
        if isCont b1 && isCont b2 && isCont b3 &&
           !(b = 0xF0 && b1 < 0x90) && !(b = 0xF4 && b1 ≥ 0x90) then
          (utf8DecodeStrict rest).map fun cs =>
            Char.ofNat ((b - 0xF0) * 0x40000 + (b1 - 0x80) * 0x1000 +
              (b2 - 0x80) * 0x40 + (b3 - 0x80)) :: cs
        else none
      | _ => none
    else none

/-- Fuel-indexed core of UTF-8 decoding with `errors='replace'`: one step
consumes at least one byte, so fuel equal to the byte count suffices (the
zero-fuel branch is unreachable).  Malformed bytes become U+FFFD, one
replacement character per offending byte (a simplification of CPython's
maximal-subpart rule that only affects how many U+FFFD appear in
already-malformed input). -/
def utf8DecodeReplaceGo : Nat → List Nat → List Char
  | _, [] => []
  | 0, _ => []
  | fuel + 1, b :: bs =>
    if b < 0x80 then Char.ofNat b :: utf8DecodeReplaceGo fuel bs
    else if b < 0xC2 then '�' :: utf8DecodeReplaceGo fuel bs
    else if b < 0xE0 then
      match bs with
      | b1 :: rest =>
        if isCont b1 then
          Char.ofNat ((b - 0xC0) * 0x40 + (b1 - 0x80)) :: utf8DecodeReplaceGo fuel rest
        else '�' :: utf8DecodeReplaceGo fuel (b1 :: rest)
      | [] => ['�']
    else if b < 0xF0 then
      match bs with
      | b1 :: b2 :: rest =>
        if isCont b1 && isCont b2 &&
           !(b = 0xE0 && b1 < 0xA0) && !(b = 0xED && b1 ≥ 0xA0) then
          Char.ofNat ((b - 0xE0) * 0x1000 + (b1 - 0x80) * 0x40 + (b2 - 0x80)) ::
            utf8DecodeReplaceGo fuel rest
        else '�' :: utf8DecodeReplaceGo fuel (b1 :: b2 :: rest)
      | other => '�' :: utf8DecodeReplaceGo fuel other
    else if b < 0xF5 then
      match bs with
      | b1 :: b2 :: b3 :: rest =>
        if isCont b1 && isCont b2 && isCont b3 &&
           !(b = 0xF0 && b1 < 0x90) && !(b = 0xF4 && b1 ≥ 0x90) then
          Char.ofNat ((b - 0xF0) * 0x40000 + (b1 - 0x80) * 0x1000 +
            (b2 - 0x80) * 0x40 + (b3 - 0x80)) :: utf8DecodeReplaceGo fuel rest
        else '�' :: utf8DecodeReplaceGo fuel (b1 :: b2 :: b3 :: rest)
      | other => '�' :: utf8DecodeReplaceGo fuel other
    else '�' :: utf8DecodeReplaceGo fuel bs

/-- UTF-8 decoding with `errors='replace'` (see `utf8DecodeReplaceGo`). -/
def utf8DecodeReplace (l : List Nat) : List Char :=
  utf8DecodeReplaceGo l.length l

/-- Hexadecimal digit test. -/
def isHexDigit (c : Char) : Bool :=
  ('0' ≤ c && c ≤ '9') || ('a' ≤ c && c ≤ 'f') || ('A' ≤ c && c ≤ 'F')

/-- Hexadecimal digit value. -/
def hexVal (c : Char) : Nat :=
  if '0' ≤ c && c ≤ '9' then c.toNat - '0'.toNat
  else if 'a' ≤ c && c ≤ 'f' then c.toNat - 'a'.toNat + 10
  else if 'A' ≤ c && c ≤ 'F' then c.toNat - 'A'.toNat + 10
  else 0

/-- Core loop of `urllib.parse.unquote`: runs of `%hh` escapes are decoded
as one byte string (UTF-8, `errors='replace'`); everything else passes
through unchanged; `%` not followed by two hex digits stays literal. -/
def pyUnquoteGo (pending : List Nat) : List Char → List Char
  | [] => utf8DecodeReplace pending
  | '%' :: h1 :: h2 :: rest =>
    if isHexDigit h1 && isHexDigit h2 then
      pyUnquoteGo (pending ++ [hexVal h1 * 16 + hexVal h2]) rest
    else
      utf8DecodeReplace pending ++ '%' :: pyUnquoteGo [] (h1 :: h2 :: rest)
  | c :: rest =>
    utf8DecodeReplace pending ++ c :: pyUnquoteGo [] rest

/-- Model of `urllib.parse.unquote(s)` (UTF-8, `errors='replace'`). -/
def pyUnquote (s : String) : String := (pyUnquoteGo [] s.data).asString

/-- Model of `urllib.parse.unquote_plus(s)`: `+` becomes a space, then percent
decoding. -/
def pyUnquotePlus (s : String) : String :=
  pyUnquote (s.data.map fun c => if c = '+' then ' ' else c).asString

/-! ## `urllib.parse.urlsplit` / `urlparse` / `parse_qs` -/

/-- Result of `urlsplit`. -/
structure UrlSplitResult where
  scheme : String
  netloc : String
  path : String
  query : String
  fragment : String
deriving DecidableEq, Repr

/-- Characters allowed in a URL scheme after the initial letter. -/
def isSchemeChar (c : Char) : Bool :=
  ('a' ≤ c && c ≤ 'z') || ('A' ≤ c && c ≤ 'Z') || ('0' ≤ c && c ≤ '9') ||
  c = '+' || c = '-' || c = '.'

/-- Model of `urllib.parse.urlsplit`: strips leading C0-control/space characters,
removes embedded tab/CR/LF, splits off `scheme:`, `//netloc`, `#fragment`
and `?query` in that order.  Returns `none` exactly when CPython raises
`ValueError` (mismatched IPv6 brackets in the netloc). -/
def pyUrlsplit (url : String) : Option UrlSplitResult :=
  let u := (pyLStripWith (fun c => c.toNat ≤ 0x20) url).data.filter
    fun c => c ≠ '\t' && c ≠ '\r' && c ≠ '\n'
  let schemed :=
    match u.indexOf? ':' with
    | some i =>
      if i > 0 &&
         (match u.head? with
          | some c0 => ('a' ≤ c0 && c0 ≤ 'z') || ('A' ≤ c0 && c0 ≤ 'Z')
          | none => false) &&
         (u.take i).all isSchemeChar then
        ((pyLower (u.take i).asString), u.drop (i + 1))
      else ("", u)
    | none => ("", u)
  let scheme := schemed.1
  let u := schemed.2
  let netlocked :=
    if listStartsWith "//".data u then
      let nl := (u.drop 2).takeWhile fun c => c ≠ '/' && c ≠ '?' && c ≠ '#'
      (nl.asString, (u.drop 2).drop nl.length)
    else ("", u)
  let netloc := netlocked.1
  let u := netlocked.2
  if (pyIn "[" netloc && !pyIn "]" netloc) ||
     (pyIn "]" netloc && !pyIn "[" netloc) then none
  else
    let fragged :=
      match u.indexOf? '#' with
      | some i => (u.take i, (u.drop (i + 1)).asString)
      | none => (u, "")
    let u := fragged.1
    let fragment := fragged.2
    let queried :=
      match u.indexOf? '?' with
      | some i => (u.take i, (u.drop (i + 1)).asString)
      | none => (u, "")
    some ⟨scheme, netloc, queried.1.asString, queried.2, fragment⟩

/-- Result of `urlparse` (a `SplitResult` with `;params` separated from
the path's last segment). -/
structure UrlParseResult where
  scheme : String
  netloc : String
  path : String
  params : String
  query : String
  fragment : String
deriving DecidableEq, Repr

/-- Model of `urllib.parse._splitparams`: split `;params` off the last path
segment. -/
def splitParams (path : String) : String × String :=
  let start : Nat :=
    if pyIn "/" path then (pyRFindChar path '/').toNat else 0
  match (path.data.drop start).indexOf? ';' with
  | some j =>
    ((path.data.take (start + j)).asString, (path.data.drop (start + j + 1)).asString)
  | none => (path, "")

/-- Model of `urllib.parse.urlparse`. -/
def pyUrlparse (url : String) : Option UrlParseResult :=
  (pyUrlsplit url).map fun r =>
    let pp := splitParams r.path
    ⟨r.scheme, r.netloc, pp.1, pp.2, r.query, r.fragment⟩

/-- Model of `urllib.parse.parse_qsl` with the default `keep_blank_values=False`:
split on `&`, skip empty fields, skip fields without `=` and fields with
an empty value, percent-decode names and values with `unquote_plus`. -/
def parseQsl (qs : String) : List (String × String) :=
  (pySplitAll qs '&').filterMap fun field =>
    if field = "" then none
    else
      match field.data.indexOf? '=' with
      | none => none
      | some i =>
        let value := (field.data.drop (i + 1)).asString
        if value = "" then none
        else some (pyUnquotePlus (field.data.take i).asString, pyUnquotePlus value)

/-- Model of `parse_qs(qs).get(key, [None])[0]`: the first value bound to `key`. -/
def parseQsGet (qs key : String) : Option String :=
  ((parseQsl qs).find? fun p => p.1 = key).map (·.2)

/-- Model of `parse_qs(qs).get(key, [])`: every value bound to `key`, in occurrence
order. -/
def parseQsValues (qs key : String) : List String :=
  ((parseQsl qs).filter fun p => p.1 = key).map (·.2)

/-! ## `base64.urlsafe_b64decode` and `BaseSearch._unwrap_bing_url` -/

/-- Value of one base64 alphabet character.  `urlsafe_b64decode` first
translates `-`/`_` to `+`/`/`, so both alphabets decode. -/
def b64CharVal (c : Char) : Option Nat :=
  if 'A' ≤ c && c ≤ 'Z' then some (c.toNat - 'A'.toNat)
  else if 'a' ≤ c && c ≤ 'z' then some (c.toNat - 'a'.toNat + 26)
  else if '0' ≤ c && c ≤ '9' then some (c.toNat - '0'.toNat + 52)
  else if c = '-' || c = '+' then some 62
  else if c = '_' || c = '/' then some 63
  else none

/-- The `binascii.a2b_base64` automaton in its default non-strict mode:
characters outside the alphabet are discarded (leaving the pad count
unchanged); a data character resets the pad count to zero and shifts
6 bits in, emitting a byte whenever 8 bits are available; `=` in quad
position ≥ 2 increments the pad count and finishes the decode as soon as
quad position plus pad count reaches 4 (everything after that is
ignored), while `=` in quad position 0 or 1 is skipped without touching
the pad count; input that ends mid-quad is an error (one leftover data
character, or 2–3 without enough padding). -/
def b64Go : List Char → Nat → Nat → Nat → Option (List Nat)
  | [], quadPos, _, _ => if quadPos = 0 then some [] else none
  | c :: rest, quadPos, acc, pads =>
    if c = '=' then
      if quadPos ≥ 2 then
        if quadPos + (pads + 1) ≥ 4 then some []
        else b64Go rest quadPos acc (pads + 1)
      else b64Go rest quadPos acc pads
    else
      match b64CharVal c with
      | none => b64Go rest quadPos acc pads
      | some v =>
        match quadPos with
        | 0 => b64Go rest 1 v 0
        | 1 => (b64Go rest 2 ((acc * 64 + v) % 16) 0).map ((acc * 64 + v) / 16 :: ·)
        | 2 => (b64Go rest 3 ((acc * 64 + v) % 4) 0).map ((acc * 64 + v) / 4 :: ·)
        | _ => (b64Go rest 0 0 0).map ((acc * 64 + v) :: ·)

/-- Model of `base64.urlsafe_b64decode(enc + '==')` as performed by
`_unwrap_bing_url`: `_bytes_from_decode_data` first requires the `str`
argument to be pure ASCII and raises `ValueError` otherwise (so a
non-ASCII `u` parameter is a decode failure, not a decode); `-`/`_` are
translated to `+`/`/` (both alphabets are accepted by `b64CharVal`), and
the non-strict `a2b_base64` automaton runs with the two appended padding
characters. -/
def bingB64Decode (enc : String) : Option (List Nat) :=
  let s := enc ++ "=="
  if s.data.all (fun c => c.toNat ≤ 127) then b64Go s.data 0 0 0
  else none

/-- Model of `BaseSearch._unwrap_bing_url`: for a `bing.com` URL whose query
carries a `u` parameter, strip an optional `a1` prefix, base64url-decode
with restored padding, UTF-8-decode, and return the result exactly when it
starts with `http`; in every failure case the original URL is returned
(all exceptions are caught). -/
def unwrapBingUrl (bingUrl : String) : String :=
  match pyUrlparse bingUrl with
  | none => bingUrl
  | some u =>
    if !pyIn "bing.com" u.netloc then bingUrl
    else
      match (if u.query = "" then none else parseQsGet u.query "u") with
      | none => bingUrl
      | some enc =>
        if enc = "" then bingUrl
        else
          let enc := if pyStartsWith enc "a1" then pyDrop enc 2 else enc
          match bingB64Decode enc with
          | none => bingUrl
          | some bytes =>
            match utf8DecodeStrict bytes with
            | none => bingUrl
            | some chars =>
              if pyStartsWith chars.asString "http" then chars.asString else bingUrl

/-! ## Link validity and `BaseSearch._normalize_url` -/

/-- Model of `BaseSearch.INVALID_LINK_PATTERNS`. -/
def invalidLinkPatterns : List String :=
  ["#", "javascript:void(0);", "javascript:void(0)", "javascript:",
   "mailto:", "tel:", "data:", "about:", "chrome:", "file:"]

/-- Model of `BaseSearch._is_invalid_link`: empty strings, the enumerated scheme
and anchor prefixes (checked on the lowered, stripped link), the literal
anchors, and the bare `/`. -/
def isInvalidLink (href : String) : Bool :=
  if href = "" then true
  else
    let hrefLower := pyStrip (pyLower href)
    if invalidLinkPatterns.any fun p => pyStartsWith hrefLower p then true
    else if hrefLower = "#" || hrefLower = "javascript:void(0);" ||
            hrefLower = "javascript:void(0)" then true
    else if pyStartsWith href "/" && href.data.length = 1 then true
    else false

/-- Model of `BaseSearch._normalize_url`: reject invalid links, unwrap Bing
redirects, resolve `/ck/a`-style `u=`/`r=` redirect parameters, then
expand protocol-relative links with `https:` and root-relative links with
`https://www.bing.com`. -/
def normalizeUrl (href : String) : Option String :=
  if href = "" then none
  else if isInvalidLink href then none
  else
    let href := if pyIn "bing.com" href then unwrapBingUrl href else href
    let href :=
      match pyUrlparse href with
      | none => href
      | some pu =>
        if pyIn "bing.com" pu.netloc && (pyIn "/ck/a" pu.path || pyIn "redirect" pu.path) then
          let us := parseQsValues pu.query "u"
          let us := if us = [] then parseQsValues pu.query "r" else us
          match us.head? with
          | none => href
          | some u0 =>
            let u0 := pyUnquote u0
            if pyStartsWith u0 "http" then u0 else href
        else href
    if pyStartsWith href "//" then some ("https:" ++ href)
    else if pyStartsWith href "/" then some ("https://www.bing.com" ++ href)
    else some href

/-- Modelled from the spec (§4.1, claim C6): `LinkResolver.normalize`
"expands ... root-relative (`/path`) against the originating engine's
base host" — for a link emitted by an engine whose base host is
`engineBaseHost`, a root-relative `href` would become
`https://<engineBaseHost><href>`. -/
def normalizeUrlSpecRootRelative (engineBaseHost href : String) : String :=
  "https://" ++ engineBaseHost ++ href

/-! ## Similarity predicates and `BaseSearch._smart_deduplication` -/

/-- The tracking parameters ignored by `_are_urls_similar`. -/
def ignoreParams : List String :=
  ["utm_source", "utm_medium", "utm_campaign", "ref", "source", "from"]

/-- Equality of the two `parse_qs` dictionaries after popping the ignored
tracking parameters (Python `dict` equality: same keys, and per key the
same value list in occurrence order). -/
def qsDictEqAfterIgnore (q1 q2 : String) : Bool :=
  let l1 := (parseQsl q1).filter fun p => p.1 ∉ ignoreParams
  let l2 := (parseQsl q2).filter fun p => p.1 ∉ ignoreParams
  let keys := (l1.map (·.1) ++ l2.map (·.1)).dedup
  keys.all fun k =>
    ((l1.filter fun p => p.1 = k).map (·.2)) = ((l2.filter fun p => p.1 = k).map (·.2))

/-- Model of `BaseSearch._are_urls_similar`: same netloc and path, and equal query
dictionaries once tracking parameters are removed; any parse exception
yields `False`. -/
def areUrlsSimilar (url1 url2 : String) : Bool :=
  match pyUrlparse url1, pyUrlparse url2 with
  | some p1, some p2 =>
    if p1.netloc ≠ p2.netloc || p1.path ≠ p2.path then false
    else qsDictEqAfterIgnore p1.query p2.query
  | _, _ => false

/-- Model of `BaseSearch._are_titles_similar`: Jaccard similarity of the character
sets exceeds 0.8 (compared exactly: `|∩|/|∪| > 4/5`). -/
def areTitlesSimilar (title1 title2 : String) : Bool :=
  if title1 = "" || title2 = "" then false
  else
    let s1 := title1.data.dedup
    let s2 := title2.data.dedup
    let inter := (s1.filter fun c => c ∈ s2).length
    let union := (s1 ++ s2.filter fun c => c ∉ s1).length
    union > 0 && 5 * inter > 4 * union

/-- A search-result record (the result dictionaries of `web_search.py`):
`score` is `none` when the producing code path never sets a `"score"` key,
in which case `x.get("score", 0)` reads 0. -/
structure SR where
  title : String
  url : String
  snippet : String
  engine : String
  score : Option Int
deriving DecidableEq, Repr

/-- Model of `x.get("score", 0)`. -/
def getScore (r : SR) : Int := r.score.getD 0

/-- The dedup key used on non-image categories: the stripped URL. -/
def urlKey (r : SR) : String := pyStrip r.url

/-- The normalized title key used by `_smart_deduplication`. -/
def titleKey (r : SR) : String := normalizeText (pyLower (pyStrip r.title))

/-- The loop of `BaseSearch._smart_deduplication`: each item is kept only
if its stripped URL is non-empty, its URL and normalized title are new,
and neither is similar to one already kept; kept items record their
keys. -/
def smartDedupGo : List SR → List String → List String → List SR
  | [], _, _ => []
  | item :: rest, seenUrls, seenTitles =>
    let url := urlKey item
    let titleNorm := titleKey item
    if url = "" then smartDedupGo rest seenUrls seenTitles
    else if url ∈ seenUrls then smartDedupGo rest seenUrls seenTitles
    else if titleNorm ∈ seenTitles then smartDedupGo rest seenUrls seenTitles
    else if seenUrls.any (fun su => areUrlsSimilar url su) then
      smartDedupGo rest seenUrls seenTitles
    else if seenTitles.any (fun st => areTitlesSimilar titleNorm st) then
      smartDedupGo rest seenUrls seenTitles
    else item :: smartDedupGo rest (url :: seenUrls) (titleNorm :: seenTitles)

/-- Model of `BaseSearch._smart_deduplication`. -/
def smartDeduplication (results : List SR) : List SR :=
  if results = [] then [] else smartDedupGo results [] []

/-! ## `VideoSearch._is_video_content` and the video candidate filter -/

/-- The `video_paths` list of `VideoSearch._is_video_content`. -/
def videoPaths : List String :=
  ["/videos", "/video", "/v/", "/play/", "/player/", "/watch/", "/movie/",
   "/tv/", "/anime/", "/drama/", "/clip/", "/stream/", "/live/", "/x/",
   "/cover/", "/page/"]

/-- Model of `VideoSearch._is_video_content` (the `title` argument is accepted but
never used, exactly as in the source): Bing search pages are rejected; a
URL must contain a video path segment; with no `?` it is accepted; with a
`?` after the last `/` and a dotted domain part, it is rejected exactly
when the 10 characters before the `?` end in `search` or in a video path
segment. -/
def isVideoContent (url title : String) : Bool :=
  if url = "" then false
  else if pyIn "bing.com" url && (pyIn "search" url || pyIn "videos/search" url) then
    false
  else if videoPaths.any (fun p => pyIn p url) then
    match url.data.indexOf? '?' with
    | none => true
    | some questionPos =>
      let before := (url.data.take questionPos).asString
      let lastSlash : Int := pyRFindChar before '/'
      if (questionPos : Int) > lastSlash then
        let domainPart :=
          if lastSlash < 0 then (before.data.take (before.data.length - 1)).asString
          else (before.data.take lastSlash.toNat).asString
        if pyIn "." domainPart then
          let charsBefore := pyLower (pyTakeRight before 10)
          let hasSearch := pyEndsWith charsBefore "search"
          let hasVideoPathBefore :=
            videoPaths.any fun p => pyEndsWith charsBefore (pyDrop p 1)
          if hasSearch || hasVideoPathBefore then false else true
        else true
      else true
  else false

/-- The per-candidate acceptance test of `VideoSearch._parse_search_results`
after URL normalization: the cleaned title must be non-empty and
`_is_video_content` must accept the URL. -/
def videoCandidateKept (title href : String) : Bool :=
  let t := cleanTitle title href
  t ≠ "" && isVideoContent href t

/-! ## `list.sort(key=…, reverse=True)`

Python's sort is stable; with `reverse=True` it orders by descending key
and keeps the original relative order of equal-key elements.  A stable
descending sort is extensionally unique (the key order plus the first-seen
tie order fix the output), so the insertion sort below computes exactly
the list CPython's Timsort produces. -/

/-- Stable descending insertion: `x` is placed after every earlier element
whose key is strictly greater, and before the first whose key is `≤`
(so equal-key elements keep first-seen order, `x` being the earlier). -/
def pyInsertDescBy (key : α → Int) (x : α) : List α → List α
  | [] => [x]
  | y :: ys => if key y > key x then y :: pyInsertDescBy key x ys else x :: y :: ys

/-- Model of `l.sort(key=key, reverse=True)`. -/
def pySortDescBy (key : α → Int) : List α → List α
  | [] => []
  | x :: xs => pyInsertDescBy key x (pySortDescBy key xs)

/-! ## The four category search functions and the unified dispatcher

The effectful boundary is made explicit: a `List (Except String (List SR))`
models the outcomes of the per-site futures of `WebSearch.search` (an
`Except.error` is a task that raised — its contribution is caught and
skipped), a `List (List SR)` models the sequentially collected per-site
scrape results of the image/resource searches, and a plain `List SR`
models what a built-in Bing engine query scraped. -/

/-- The blank-query guard `if not query or len(query.strip()) < 1`. -/
def isBlankQuery (query : String) : Bool :=
  query = "" || pyStrip query = ""

/-- Result collection of `WebSearch.search`: successful futures are
extended into `results`, a future that raised contributes nothing. -/
def collectOutcomes (siteOutcomes : List (Except String (List SR))) : List SR :=
  (siteOutcomes.filterMap Except.toOption).flatten

/-- The score assignment `result["score"] = self._calculate_relevance_score(...)`. -/
def scoreItem (query : String) (r : SR) : SR :=
  { r with score := some (calculateRelevanceScore r.title r.url query) }

/-- The merged raw result list of `WebSearch.search` before deduplication:
the collected site-future results, or — when every configured site
produced nothing — the Bing fallback results scored with
`_calculate_relevance_score`. -/
def webMerged (query : String) (siteOutcomes : List (Except String (List SR)))
    (bingFallback : List SR) : List SR :=
  let results := collectOutcomes siteOutcomes
  if results = [] then bingFallback.map (scoreItem query) else results

/-- Model of `WebSearch.search`: blank queries return `[]`; site futures are
collected (failures skipped); if no site produced anything, the Bing
multi-page fallback is scored with `_calculate_relevance_score`; the
merged list is smart-deduplicated and sorted by `x.get("score", 0)`
descending.  The `limit` and `filterMode` arguments are accepted and
ignored, as in the source. -/
def webSearchRun (query : String) (page : Nat) (limit : Option Nat)
    (filterMode : String) (siteOutcomes : List (Except String (List SR)))
    (bingFallback : List SR) : List SR :=
  if isBlankQuery query then []
  else pySortDescBy getScore (smartDeduplication (webMerged query siteOutcomes bingFallback))

/-- The image dedup loop of `ImageSearch.search`: key is the `snippet`
field (the resolved image URL); an empty key drops the item. -/
def imageDedupGo : List SR → List String → List SR
  | [], _ => []
  | item :: rest, seen =>
    if item.snippet ≠ "" && item.snippet ∉ seen then
      item :: imageDedupGo rest (item.snippet :: seen)
    else imageDedupGo rest seen

/-- The merged raw result list of `ImageSearch.search`: the concatenated
per-site scrape results, or the Bing image fallback when they are
empty. -/
def imageMerged (siteResults : List (List SR)) (bingFallback : List SR) : List SR :=
  if siteResults.flatten = [] then bingFallback else siteResults.flatten

/-- Model of `ImageSearch.search`: blank queries return `[]`; configured image
sites are scraped in order; if they produced nothing, the Bing image
fallback is used; the result is deduplicated on the image URL and
returned unsorted. -/
def imageSearchRun (query : String) (page : Nat) (limit : Option Nat)
    (siteResults : List (List SR)) (bingFallback : List SR) : List SR :=
  if isBlankQuery query then []
  else imageDedupGo (imageMerged siteResults bingFallback) []

/-- The URL dedup loop shared by `VideoSearch.search` and
`ResourceSearch.search`: key is the raw `url` field; empty keys drop the
item. -/
def urlDedupGo : List SR → List String → List SR
  | [], _ => []
  | item :: rest, seen =>
    if item.url ≠ "" && item.url ∉ seen then
      item :: urlDedupGo rest (item.url :: seen)
    else urlDedupGo rest seen

/-- Model of `VideoSearch.search`: blank queries return `[]`; otherwise the Bing
video results are deduplicated on URL and returned in first-seen order
(no scoring, no sorting). -/
def videoSearchRun (query : String) (page : Nat) (limit : Option Nat)
    (bingResults : List SR) : List SR :=
  if isBlankQuery query then []
  else urlDedupGo bingResults []

/-- Model of `get_priority_score` of `ResourceSearch.search`: 10 per occurrence of
the lowered query in the lowered title; +1000 for a normalized substring
match, else the proportional partial-match credit `int(match_ratio*500)`
(modelled exactly as `⌊500·|∩|/|query charset|⌋`), or +1 when the query
charset is empty. -/
def getPriorityScore (query : String) (item : SR) : Int :=
  let title := pyLower item.title
  let queryLower := pyLower query
  let score : Int := (pyCount title queryLower : Int) * 10
  let normalizedQuery := normalizeText queryLower
  let normalizedTitle := normalizeText title
  if pyIn normalizedQuery normalizedTitle then score + 1000
  else
    let qn := (charSetNoSpace normalizedQuery).length
    if qn > 0 then
      score + ((500 * matchCharCount normalizedQuery normalizedTitle) / qn : Nat)
    else score + 1

/-- The merged result list of `ResourceSearch.search` before
deduplication: each site's scrape filtered by `_is_relevant_content`. -/
def resourceFiltered (query : String) (siteResults : List (List SR)) : List SR :=
  (siteResults.map fun rs =>
    rs.filter fun r => resourceIsRelevantContent r.title r.url query).flatten

/-- Model of `ResourceSearch.search`: blank queries return `[]`; each configured
site's scraped results are filtered by `_is_relevant_content`, the merged
list is deduplicated on URL and sorted by `get_priority_score`
descending.  There is no Bing fallback in this category. -/
def resourceSearchRun (query : String) (page : Nat) (limit : Option Nat)
    (category : String) (siteResults : List (List SR)) : List SR :=
  if isBlankQuery query then []
  else pySortDescBy (getPriorityScore query) (urlDedupGo (resourceFiltered query siteResults) [])

/-- Model of `UnifiedSearch.search`: lower-case the search type and dispatch to the
corresponding category search; any other type returns `[]` directly.  The
four member search objects are parameters of the model. -/
def unifiedSearch (webFn : String → Nat → Option Nat → String → List SR)
    (imageFn : String → Nat → Option Nat → List SR)
    (videoFn : String → Nat → Option Nat → List SR)
    (resourceFn : String → Nat → Option Nat → String → List SR)
    (query searchType : String) (page : Nat) (limit : Option Nat)
    (filterMode category : String) : List SR :=
  let st := pyLower searchType
  if st = "web" then webFn query page limit filterMode
  else if st = "images" then imageFn query page limit
  else if st = "videos" then videoFn query page limit
  else if st = "files" || st = "resources" then resourceFn query page limit category
  else []

/-! ## Lemmas about the stable descending sort -/

theorem pyInsertDescBy_perm (key : α → Int) (x : α) (l : List α) :
    (pyInsertDescBy key x l).Perm (x :: l) := by
  induction l with
  | nil => simp [pyInsertDescBy]
  | cons y ys ih =>
    simp only [pyInsertDescBy]
    split
    · exact ((ih.cons y).trans (List.Perm.swap x y ys))
    · exact List.Perm.refl _

theorem pySortDescBy_perm (key : α → Int) (l : List α) :
    (pySortDescBy key l).Perm l := by
  induction l with
  | nil => simp [pySortDescBy]
  | cons x xs ih =>
    exact (pyInsertDescBy_perm key x (pySortDescBy key xs)).trans (ih.cons x)

theorem pyInsertDescBy_sorted (key : α → Int) (x : α) (l : List α)
    (h : l.Pairwise fun a b => key b ≤ key a) :
    (pyInsertDescBy key x l).Pairwise fun a b => key b ≤ key a := by
  induction l with
  | nil => simp [pyInsertDescBy]
  | cons y ys ih =>
    rcases List.pairwise_cons.mp h with ⟨hy, hys⟩
    simp only [pyInsertDescBy]
    split
    · rename_i hord
      refine List.pairwise_cons.mpr ⟨?_, ih hys⟩
      intro z hz
      rcases List.mem_cons.mp ((pyInsertDescBy_perm key x ys).mem_iff.mp hz) with rfl | hz'
      · omega
      · exact hy z hz'
    · rename_i hord
      refine List.pairwise_cons.mpr ⟨?_, h⟩
      intro z hz
      rcases List.mem_cons.mp hz with rfl | hz'
      · omega
      · have := hy z hz'; omega

theorem pySortDescBy_sorted (key : α → Int) (l : List α) :
    (pySortDescBy key l).Pairwise fun a b => key b ≤ key a := by
  induction l with
  | nil => simp [pySortDescBy]
  | cons x xs ih => exact pyInsertDescBy_sorted key x _ ih

theorem pyInsertDescBy_filter (key : α → Int) (x : α) (l : List α) (k : Int) :
    (pyInsertDescBy key x l).filter (fun a => key a == k)
      = if key x = k then x :: l.filter (fun a => key a == k)
        else l.filter (fun a => key a == k) := by
  induction l with
  | nil => simp [pyInsertDescBy, List.filter]; split <;> simp_all
  | cons y ys ih =>
    simp only [pyInsertDescBy]
    split
    · rename_i hord
      simp only [List.filter_cons, ih]
      split_ifs <;> simp_all
    · simp only [List.filter_cons]
      split_ifs <;> simp_all

theorem pySortDescBy_filter (key : α → Int) (l : List α) (k : Int) :
    (pySortDescBy key l).filter (fun a => key a == k)
      = l.filter (fun a => key a == k) := by
  induction l with
  | nil => rfl
  | cons x xs ih =>
    simp only [pySortDescBy, pyInsertDescBy_filter, List.filter_cons, ih]
    split_ifs <;> simp_all

/-! ## Lemmas about the deduplication loops -/

/-- The pairwise separation `_smart_deduplication` establishes between an
earlier kept item `a` and a later kept item `b`. -/
def smartSeparated (a b : SR) : Prop :=
  urlKey a ≠ urlKey b ∧ titleKey a ≠ titleKey b ∧
  areUrlsSimilar (urlKey b) (urlKey a) = false ∧
  areTitlesSimilar (titleKey b) (titleKey a) = false

theorem smartDedupGo_sublist : ∀ (l : List SR) (su st : List String),
    (smartDedupGo l su st).Sublist l := by
  intro l
  induction l with
  | nil => intro su st; simp [smartDedupGo]
  | cons item rest ih =>
    intro su st
    simp only [smartDedupGo]
    split_ifs <;> first
      | exact (ih _ _).cons item
      | exact (ih _ _).cons₂ item

theorem smartDedupGo_mem : ∀ (l : List SR) (su st : List String) (x : SR),
    x ∈ smartDedupGo l su st →
      urlKey x ≠ "" ∧ urlKey x ∉ su ∧ titleKey x ∉ st ∧
      (∀ u ∈ su, areUrlsSimilar (urlKey x) u = false) ∧
      (∀ t ∈ st, areTitlesSimilar (titleKey x) t = false) := by
  intro l
  induction l with
  | nil => intro su st x hx; simp [smartDedupGo] at hx
  | cons item rest ih =>
    intro su st x hx
    simp only [smartDedupGo] at hx
    split_ifs at hx with h1 h2 h3 h4 h5
    · exact ih _ _ x hx
    · exact ih _ _ x hx
    · exact ih _ _ x hx
    · exact ih _ _ x hx
    · exact ih _ _ x hx
    · rcases List.mem_cons.mp hx with rfl | hx
      · refine ⟨h1, h2, h3, ?_, ?_⟩
        · intro u hu
          by_contra hc
          exact h4 (List.any_eq_true.mpr ⟨u, hu, by simpa using hc⟩)
        · intro t ht
          by_contra hc
          exact h5 (List.any_eq_true.mpr ⟨t, ht, by simpa using hc⟩)
      · obtain ⟨hne, hsu, hst, hsim, htsim⟩ := ih _ _ x hx
        refine ⟨hne, fun h => hsu (List.mem_cons_of_mem _ h),
                fun h => hst (List.mem_cons_of_mem _ h),
                fun u hu => hsim u (List.mem_cons_of_mem _ hu),
                fun t ht => htsim t (List.mem_cons_of_mem _ ht)⟩

theorem smartDedupGo_pairwise : ∀ (l : List SR) (su st : List String),
    (smartDedupGo l su st).Pairwise smartSeparated := by
  intro l
  induction l with
  | nil => intro su st; simp [smartDedupGo]
  | cons item rest ih =>
    intro su st
    simp only [smartDedupGo]
    split_ifs
    · exact ih _ _
    · exact ih _ _
    · exact ih _ _
    · exact ih _ _
    · exact ih _ _
    · refine List.pairwise_cons.mpr ⟨?_, ih _ _⟩
      intro b hb
      obtain ⟨_, hsu, hst, hsim, htsim⟩ := smartDedupGo_mem _ _ _ b hb
      exact ⟨fun h => hsu (h ▸ List.mem_cons_self _ _),
             fun h => hst (h ▸ List.mem_cons_self _ _),
             hsim _ (List.mem_cons_self _ _),
             htsim _ (List.mem_cons_self _ _)⟩

theorem imageDedupGo_sublist : ∀ (l : List SR) (seen : List String),
    (imageDedupGo l seen).Sublist l := by
  intro l
  induction l with
  | nil => intro seen; simp [imageDedupGo]
  | cons item rest ih =>
    intro seen
    simp only [imageDedupGo]
    split_ifs <;> first
      | exact (ih _).cons item
      | exact (ih _).cons₂ item

theorem imageDedupGo_mem : ∀ (l : List SR) (seen : List String) (x : SR),
    x ∈ imageDedupGo l seen → x.snippet ≠ "" ∧ x.snippet ∉ seen := by
  intro l
  induction l with
  | nil => intro seen x hx; simp [imageDedupGo] at hx
  | cons item rest ih =>
    intro seen x hx
    simp only [imageDedupGo] at hx
    split_ifs at hx with h
    · rcases List.mem_cons.mp hx with rfl | hx
      · constructor
        · have := (Bool.and_eq_true _ _ |>.mp h).1; simp_all
        · have := (Bool.and_eq_true _ _ |>.mp h).2; simp_all
      · obtain ⟨h1, h2⟩ := ih _ x hx
        exact ⟨h1, fun hm => h2 (List.mem_cons_of_mem _ hm)⟩
    · exact ih _ x hx

theorem imageDedupGo_pairwise : ∀ (l : List SR) (seen : List String),
    (imageDedupGo l seen).Pairwise fun a b => a.snippet ≠ b.snippet := by
  intro l
  induction l with
  | nil => intro seen; simp [imageDedupGo]
  | cons item rest ih =>
    intro seen
    simp only [imageDedupGo]
    split_ifs with h
    · refine List.pairwise_cons.mpr ⟨?_, ih _⟩
      intro b hb
      obtain ⟨_, hnm⟩ := imageDedupGo_mem _ _ b hb
      exact fun heq => hnm (heq ▸ List.mem_cons_self _ _)
    · exact ih _

theorem urlDedupGo_sublist : ∀ (l : List SR) (seen : List String),
    (urlDedupGo l seen).Sublist l := by
  intro l
  induction l with
  | nil => intro seen; simp [urlDedupGo]
  | cons item rest ih =>
    intro seen
    simp only [urlDedupGo]
    split_ifs <;> first
      | exact (ih _).cons item
      | exact (ih _).cons₂ item

theorem urlDedupGo_mem : ∀ (l : List SR) (seen : List String) (x : SR),
    x ∈ urlDedupGo l seen → x.url ≠ "" ∧ x.url ∉ seen := by
  intro l
  induction l with
  | nil => intro seen x hx; simp [urlDedupGo] at hx
  | cons item rest ih =>
    intro seen x hx
    simp only [urlDedupGo] at hx
    split_ifs at hx with h
    · rcases List.mem_cons.mp hx with rfl | hx
      · constructor
        · have := (Bool.and_eq_true _ _ |>.mp h).1; simp_all
        · have := (Bool.and_eq_true _ _ |>.mp h).2; simp_all
      · obtain ⟨h1, h2⟩ := ih _ x hx
        exact ⟨h1, fun hm => h2 (List.mem_cons_of_mem _ hm)⟩
    · exact ih _ x hx

theorem urlDedupGo_pairwise : ∀ (l : List SR) (seen : List String),
    (urlDedupGo l seen).Pairwise fun a b => a.url ≠ b.url := by
  intro l
  induction l with
  | nil => intro seen; simp [urlDedupGo]
  | cons item rest ih =>
    intro seen
    simp only [urlDedupGo]
    split_ifs with h
    · refine List.pairwise_cons.mpr ⟨?_, ih _⟩
      intro b hb
      obtain ⟨_, hnm⟩ := urlDedupGo_mem _ _ b hb
      exact fun heq => hnm (heq ▸ List.mem_cons_self _ _)
    · exact ih _

/-! ## Auxiliary lemmas -/

theorem data_asString (l : List Char) : l.asString.data = l :=
  List.toList_asString l

theorem char_toNat_ofNat_valid (n : Nat) (h : n.isValidChar) :
    (Char.ofNat n).toNat = n := by
  simp only [Char.ofNat, dif_pos h, Char.ofNatAux, Char.toNat, UInt32.toNat]
  simp

theorem pyLowerChar_idem (c : Char) : pyLowerChar (pyLowerChar c) = pyLowerChar c := by
  unfold pyLowerChar
  by_cases h : (65 ≤ c.toNat && c.toNat ≤ 90) = true
  · have h65 : 65 ≤ c.toNat := by simpa using (Bool.and_eq_true _ _ |>.mp h).1
    have h90 : c.toNat ≤ 90 := by simpa using (Bool.and_eq_true _ _ |>.mp h).2
    have hvalid : (c.toNat + 32).isValidChar := Or.inl (by omega)
    have htn : (Char.ofNat (c.toNat + 32)).toNat = c.toNat + 32 :=
      char_toNat_ofNat_valid _ hvalid
    simp only [if_pos h, htn]
    rw [if_neg]
    simp only [Bool.and_eq_true, decide_eq_true_eq, not_and]
    intro
    omega
  · simp only [if_neg h]

theorem pyLower_idem (s : String) : pyLower (pyLower s) = pyLower s := by
  simp only [pyLower, data_asString, List.map_map]
  exact congrArg _ (List.map_congr_left fun a _ => pyLowerChar_idem a)

theorem filterMap_filter_isSome (l : List (Except String (List SR))) :
    (l.filter fun o => o.toOption.isSome).filterMap Except.toOption
      = l.filterMap Except.toOption := by
  induction l with
  | nil => rfl
  | cons o rest ih =>
    cases o with
    | ok v => simpa [List.filter_cons, List.filterMap_cons, Except.toOption] using ih
    | error e => simpa [List.filter_cons, List.filterMap_cons, Except.toOption] using ih

/-! ## Claim theorems -/

/-- C9: the Resource-category relevance check accepts on empty title or
query (emptiness disables the filter), while the Web-category relevance
check rejects on empty title or query. -/
theorem claim_C9 :
    (∀ title url query : String, title = "" ∨ query = "" →
      resourceIsRelevantContent title url query = true)
    ∧ (∀ title url query : String, title = "" ∨ query = "" →
      webIsRelevantContent title url query = false) := by
  constructor
  · intro t u q h
    rcases h with h | h <;> simp [resourceIsRelevantContent, h]
  · intro t u q h
    rcases h with h | h <;> simp [webIsRelevantContent, h]

theorem claim_C9_witness :
    resourceIsRelevantContent "" "https://a.example/x" "panda" = true
    ∧ webIsRelevantContent "" "https://a.example/x" "panda" = false :=
  ⟨claim_C9.1 "" "https://a.example/x" "panda" (Or.inl rfl),
   claim_C9.2 "" "https://a.example/x" "panda" (Or.inl rfl)⟩

/-- C10: the unified dispatcher lower-cases the search type; for every
type outside `{web, images, videos, files, resources}` it returns `[]`,
for arbitrary member search functions (so no source is consulted). -/
theorem claim_C10 :
    (∀ (webFn : String → Nat → Option Nat → String → List SR)
       (imageFn videoFn : String → Nat → Option Nat → List SR)
       (resourceFn : String → Nat → Option Nat → String → List SR)
       (q st : String) (p : Nat) (lim : Option Nat) (fm cat : String),
      pyLower st ∉ (["web", "images", "videos", "files", "resources"] : List String) →
      unifiedSearch webFn imageFn videoFn resourceFn q st p lim fm cat = [])
    ∧ (∀ (webFn : String → Nat → Option Nat → String → List SR)
       (imageFn videoFn : String → Nat → Option Nat → List SR)
       (resourceFn : String → Nat → Option Nat → String → List SR)
       (q st : String) (p : Nat) (lim : Option Nat) (fm cat : String),
      unifiedSearch webFn imageFn videoFn resourceFn q st p lim fm cat
        = unifiedSearch webFn imageFn videoFn resourceFn q (pyLower st) p lim fm cat) := by
  constructor
  · intro webFn imageFn videoFn resourceFn q st p lim fm cat h
    simp only [List.mem_cons, List.not_mem_nil, or_false, not_or] at h
    obtain ⟨h1, h2, h3, h4, h5⟩ := h
    simp [unifiedSearch, h1, h2, h3, h4, h5]
  · intro webFn imageFn videoFn resourceFn q st p lim fm cat
    simp only [unifiedSearch, pyLower_idem]

theorem claim_C10_witness :
    unifiedSearch (fun _ _ _ _ => [⟨"t", "u", "s", "e", none⟩])
      (fun _ _ _ => [⟨"t", "u", "s", "e", none⟩])
      (fun _ _ _ => [⟨"t", "u", "s", "e", none⟩])
      (fun _ _ _ _ => [⟨"t", "u", "s", "e", none⟩])
      "panda" "NEWS" 0 none "loose" "" = [] :=
  claim_C10.1 _ _ _ _ "panda" "NEWS" 0 none "loose" "" (by decide)

/-- C4 (amended): for non-empty title and query the Web relevance score
equals the claimed closed form (base 1, +50 per shared character of the
space-stripped normalized character sets, +1000 for a normalized
substring match, +20 for an official/definitional marker); for an empty
title or query the score is the base 1; the score is never negative. -/
theorem claim_C4 :
    (∀ title url query : String, title ≠ "" → query ≠ "" →
      calculateRelevanceScore title url query = webScoreSpecFormula title url query)
    ∧ (∀ title url query : String, title = "" ∨ query = "" →
      calculateRelevanceScore title url query = 1)
    ∧ (∀ title url query : String, 0 ≤ calculateRelevanceScore title url query) := by
  refine ⟨?_, ?_, ?_⟩
  · intro t u q ht hq
    simp only [calculateRelevanceScore, webScoreSpecFormula, ht, hq, decide_False,
      Bool.or_self, Bool.false_eq_true, if_false]
    split_ifs
    all_goals push_cast
    all_goals omega
  · intro t u q h
    rcases h with h | h <;> simp [calculateRelevanceScore, h]
  · intro t u q
    simp only [calculateRelevanceScore]
    split_ifs <;> positivity


theorem claim_C4_counterexample :
    calculateRelevanceScore "" "official" "x"
      ≠ webScoreSpecFormula "" "official" "x" := by decide

theorem claim_C4_witness :
    ("机器学习导论" : String) ≠ ""
    ∧ calculateRelevanceScore "机器学习导论" "https://zh.wikipedia.org/x" "机器学习"
        = webScoreSpecFormula "机器学习导论" "https://zh.wikipedia.org/x" "机器学习" :=
  ⟨by decide, claim_C4.1 "机器学习导论" "https://zh.wikipedia.org/x" "机器学习"
    (by decide) (by decide)⟩

/-- C2: `_smart_deduplication` output has pairwise-distinct stripped URLs
and normalized titles, no two pairwise-similar entries, only entries with
a non-empty URL key, and is a sublist of its input (so the first-seen
entry of each key survives and later duplicates are suppressed); the
image dedup loop has pairwise-distinct non-empty image-URL keys and also
preserves first-seen order. -/
theorem claim_C2 :
    (∀ l : List SR,
      (smartDeduplication l).Pairwise smartSeparated
      ∧ (∀ x ∈ smartDeduplication l, urlKey x ≠ "")
      ∧ (smartDeduplication l).Sublist l)
    ∧ (∀ l : List SR,
      (imageDedupGo l []).Pairwise (fun a b => a.snippet ≠ b.snippet)
      ∧ (∀ x ∈ imageDedupGo l [], x.snippet ≠ "")
      ∧ (imageDedupGo l []).Sublist l) := by
  constructor
  · intro l
    refine ⟨?_, ?_, ?_⟩
    · unfold smartDeduplication
      split
      · exact List.Pairwise.nil
      · exact smartDedupGo_pairwise l [] []
    · intro x hx
      unfold smartDeduplication at hx
      split at hx
      · simp at hx
      · exact (smartDedupGo_mem l [] [] x hx).1
    · unfold smartDeduplication
      split
      · rename_i h; exact h ▸ List.Sublist.refl _
      · exact smartDedupGo_sublist l [] []
  · intro l
    exact ⟨imageDedupGo_pairwise l [], fun x hx => (imageDedupGo_mem l [] x hx).1,
           imageDedupGo_sublist l []⟩

theorem claim_C2_witness :
    (smartDeduplication
      [⟨"猫", "https://a.example/1", "", "bing", some 3⟩,
       ⟨"猫咪", "https://a.example/1", "", "bing", some 2⟩,
       ⟨"狗", "", "", "bing", some 9⟩]).Pairwise smartSeparated
    ∧ urlKey (⟨"猫", "https://a.example/1", "", "bing", some 3⟩ : SR) ≠ "" :=
  ⟨(claim_C2.1 _).1,
   (claim_C2.1 [⟨"猫", "https://a.example/1", "", "bing", some 3⟩]).2.1
     ⟨"猫", "https://a.example/1", "", "bing", some 3⟩ (by decide)⟩

/-- C1: with the concrete category searches plugged in, a blank (empty or
whitespace-only) query makes the unified search return `[]` for every
search type; and site futures that raised are absorbed — the web search
result only depends on the successful outcomes. -/
theorem claim_C1 :
    (∀ (outs : List (Except String (List SR))) (webFb : List SR)
       (imgSites : List (List SR)) (imgFb vidRes : List SR)
       (resSites : List (List SR)) (q st : String) (p : Nat)
       (lim : Option Nat) (fm cat : String),
      isBlankQuery q = true →
      unifiedSearch (fun q p l f => webSearchRun q p l f outs webFb)
        (fun q p l => imageSearchRun q p l imgSites imgFb)
        (fun q p l => videoSearchRun q p l vidRes)
        (fun q p l c => resourceSearchRun q p l c resSites)
        q st p lim fm cat = [])
    ∧ (∀ (q : String) (p : Nat) (lim : Option Nat) (fm : String)
       (outs : List (Except String (List SR))) (fb : List SR),
      webSearchRun q p lim fm outs fb
        = webSearchRun q p lim fm (outs.filter fun o => o.toOption.isSome) fb) := by
  constructor
  · intro outs webFb imgSites imgFb vidRes resSites q st p lim fm cat hblank
    simp only [unifiedSearch]
    split_ifs <;>
      simp [webSearchRun, imageSearchRun, videoSearchRun, resourceSearchRun, hblank]
  · intro q p lim fm outs fb
    simp only [webSearchRun, webMerged, collectOutcomes, filterMap_filter_isSome]

theorem claim_C1_witness :
    unifiedSearch
      (fun q p l f => webSearchRun q p l f
        [Except.ok [⟨"t", "https://a.example/1", "", "bing", some 1⟩]]
        [⟨"t2", "https://a.example/2", "", "bing", none⟩])
      (fun q p l => imageSearchRun q p l [[⟨"t", "u", "s", "e", none⟩]] [])
      (fun q p l => videoSearchRun q p l [⟨"t", "u", "", "e", none⟩])
      (fun q p l c => resourceSearchRun q p l c [[⟨"t", "u", "", "e", none⟩]])
      "   " "web" 0 none "loose" "" = [] :=
  claim_C1.1 _ _ _ _ _ _ "   " "web" 0 none "loose" "" (by decide)

/-- C8 (amended): the Web and Image categories fall back to built-in Bing
engine results exactly when the configured sites collectively produced
nothing (the Web fallback is scored with the same
`_calculate_relevance_score` as any other source); the Video category
always uses the Bing engine; the Resource category has no engine fallback
and returns `[]` when its configured sites produce nothing relevant. -/
theorem claim_C8 :
    (∀ (q : String) (p : Nat) (lim : Option Nat) (fm : String)
       (outs : List (Except String (List SR))) (fb : List SR),
      isBlankQuery q = false → collectOutcomes outs = [] →
      webSearchRun q p lim fm outs fb
        = pySortDescBy getScore (smartDeduplication (fb.map (scoreItem q))))
    ∧ (∀ (q : String) (p : Nat) (lim : Option Nat)
       (sres : List (List SR)) (fb : List SR),
      isBlankQuery q = false → sres.flatten = [] →
      imageSearchRun q p lim sres fb = imageDedupGo fb [])
    ∧ (∀ (q : String) (p : Nat) (lim : Option Nat) (bres : List SR),
      isBlankQuery q = false →
      videoSearchRun q p lim bres = urlDedupGo bres [])
    ∧ (∀ (q : String) (p : Nat) (lim : Option Nat) (cat : String)
       (sres : List (List SR)),
      resourceFiltered q sres = [] →
      resourceSearchRun q p lim cat sres = []) := by
  refine ⟨?_, ?_, ?_, ?_⟩
  · intro q p lim fm outs fb hq hc
    simp [webSearchRun, webMerged, hq, hc]
  · intro q p lim sres fb hq hf
    simp [imageSearchRun, imageMerged, hq, hf]
  · intro q p lim bres hq
    simp [videoSearchRun, hq]
  · intro q p lim cat sres hf
    by_cases hq : isBlankQuery q = true
    · simp [resourceSearchRun, hq]
    · simp only [Bool.not_eq_true] at hq
      simp [resourceSearchRun, hq, hf, urlDedupGo, pySortDescBy]

theorem claim_C8_counterexample :
    resourceSearchRun "熊猫" 0 none "" [[], []] = [] := by decide

theorem claim_C8_witness :
    webSearchRun "熊猫" 0 none "loose"
        [Except.ok [], Except.error "timeout"]
        [⟨"熊猫百科", "https://baike.example/xiongmao", "", "bing", none⟩]
      = pySortDescBy getScore (smartDeduplication
          ([⟨"熊猫百科", "https://baike.example/xiongmao", "", "bing", none⟩].map
            (scoreItem "熊猫"))) :=
  claim_C8.1 "熊猫" 0 none "loose" [Except.ok [], Except.error "timeout"]
    [⟨"熊猫百科", "https://baike.example/xiongmao", "", "bing", none⟩]
    (by decide) (by decide)

theorem pairwise_of_forall_mem {R : α → α → Prop} :
    ∀ l : List α, (∀ a ∈ l, ∀ b ∈ l, R a b) → l.Pairwise R := by
  intro l
  induction l with
  | nil => intro _; exact .nil
  | cons x xs ih =>
    intro h
    refine List.Pairwise.cons ?_ (ih fun a ha b hb =>
      h a (List.mem_cons_of_mem _ ha) b (List.mem_cons_of_mem _ hb))
    intro b hb
    exact h x (List.mem_cons_self _ _) b (List.mem_cons_of_mem _ hb)

/-- C3: each category returns the full deduplicated set, independent of
the ignored `limit` argument.  The Web result is sorted by
`x.get("score", 0)` descending and, by sort stability, equal-score
entries keep their first-seen order (the score-`k` slice of the output
equals that of the deduplicated pre-sort list, itself a sublist of the
merged input); the Resource result is likewise sorted by
`get_priority_score`; the Video and Image results carry no score key
(every `x.get("score", 0)` reads 0), are trivially sorted, and keep
first-seen order outright. -/
theorem claim_C3 :
    (∀ (q : String) (p : Nat) (lim lim' : Option Nat) (fm : String)
       (outs : List (Except String (List SR))) (fb : List SR),
      (webSearchRun q p lim fm outs fb).Pairwise (fun a b => getScore b ≤ getScore a)
      ∧ webSearchRun q p lim fm outs fb = webSearchRun q p lim' fm outs fb
      ∧ (isBlankQuery q = false →
          (webSearchRun q p lim fm outs fb).Perm
            (smartDeduplication (webMerged q outs fb))
          ∧ ∀ k : Int,
              (webSearchRun q p lim fm outs fb).filter (fun x => getScore x == k)
                = (smartDeduplication (webMerged q outs fb)).filter
                    (fun x => getScore x == k)))
    ∧ (∀ (q : String) (p : Nat) (lim lim' : Option Nat) (cat : String)
       (sres : List (List SR)),
      (resourceSearchRun q p lim cat sres).Pairwise
        (fun a b => getPriorityScore q b ≤ getPriorityScore q a)
      ∧ resourceSearchRun q p lim cat sres = resourceSearchRun q p lim' cat sres
      ∧ (isBlankQuery q = false →
          (resourceSearchRun q p lim cat sres).Perm
            (urlDedupGo (resourceFiltered q sres) [])
          ∧ ∀ k : Int,
              (resourceSearchRun q p lim cat sres).filter
                  (fun x => getPriorityScore q x == k)
                = (urlDedupGo (resourceFiltered q sres) []).filter
                    (fun x => getPriorityScore q x == k)))
    ∧ (∀ (q : String) (p : Nat) (lim lim' : Option Nat) (bres : List SR),
      (∀ x ∈ bres, x.score = none) →
      (videoSearchRun q p lim bres).Pairwise (fun a b => getScore b ≤ getScore a)
      ∧ videoSearchRun q p lim bres = videoSearchRun q p lim' bres
      ∧ (videoSearchRun q p lim bres).Sublist bres)
    ∧ (∀ (q : String) (p : Nat) (lim lim' : Option Nat)
       (sres : List (List SR)) (fb : List SR),
      (∀ x ∈ imageMerged sres fb, x.score = none) →
      (imageSearchRun q p lim sres fb).Pairwise (fun a b => getScore b ≤ getScore a)
      ∧ imageSearchRun q p lim sres fb = imageSearchRun q p lim' sres fb
      ∧ (imageSearchRun q p lim sres fb).Sublist (imageMerged sres fb)) := by
  refine ⟨?_, ?_, ?_, ?_⟩
  · intro q p lim lim' fm outs fb
    refine ⟨?_, rfl, fun hq => ⟨?_, fun k => ?_⟩⟩
    · unfold webSearchRun
      split
      · exact List.Pairwise.nil
      · exact pySortDescBy_sorted getScore _
    · simp only [webSearchRun, hq, Bool.false_eq_true, if_false]
      exact pySortDescBy_perm getScore _
    · simp only [webSearchRun, hq, Bool.false_eq_true, if_false]
      exact pySortDescBy_filter getScore _ k
  · intro q p lim lim' cat sres
    refine ⟨?_, rfl, fun hq => ⟨?_, fun k => ?_⟩⟩
    · unfold resourceSearchRun
      split
      · exact List.Pairwise.nil
      · exact pySortDescBy_sorted (getPriorityScore q) _
    · simp only [resourceSearchRun, hq, Bool.false_eq_true, if_false]
      exact pySortDescBy_perm (getPriorityScore q) _
    · simp only [resourceSearchRun, hq, Bool.false_eq_true, if_false]
      exact pySortDescBy_filter (getPriorityScore q) _ k
  · intro q p lim lim' bres hnone
    have hsub : (videoSearchRun q p lim bres).Sublist bres := by
      unfold videoSearchRun
      split
      · exact List.nil_sublist _
      · exact urlDedupGo_sublist bres []
    refine ⟨?_, rfl, hsub⟩
    refine pairwise_of_forall_mem _ fun a ha b hb => ?_
    have hza := hnone a (hsub.subset ha)
    have hzb := hnone b (hsub.subset hb)
    simp [getScore, hza, hzb]
  · intro q p lim lim' sres fb hnone
    have hsub : (imageSearchRun q p lim sres fb).Sublist (imageMerged sres fb) := by
      unfold imageSearchRun
      split
      · exact List.nil_sublist _
      · exact imageDedupGo_sublist _ []
    refine ⟨?_, rfl, hsub⟩
    refine pairwise_of_forall_mem _ fun a ha b hb => ?_
    have hza := hnone a (hsub.subset ha)
    have hzb := hnone b (hsub.subset hb)
    simp [getScore, hza, hzb]

theorem claim_C3_witness :
    ((webSearchRun "猫" 0 (some 1) "loose"
        [Except.ok [⟨"猫a", "https://a.example/1", "", "bing", some 5⟩,
                    ⟨"猫b", "https://a.example/2", "", "bing", some 7⟩]]
        []).Perm
      (smartDeduplication (webMerged "猫"
        [Except.ok [⟨"猫a", "https://a.example/1", "", "bing", some 5⟩,
                    ⟨"猫b", "https://a.example/2", "", "bing", some 7⟩]] [])))
    ∧ (videoSearchRun "猫" 0 (some 9)
        [⟨"v1", "https://v.example/watch/1", "", "bing", none⟩]).Sublist
        [⟨"v1", "https://v.example/watch/1", "", "bing", none⟩] :=
  ⟨((claim_C3.1 "猫" 0 (some 1) (some 1) "loose" _ _).2.2 (by decide)).1,
   (claim_C3.2.2.1 "猫" 0 (some 9) (some 9) _ (by decide)).2.2⟩

/-- C7 (amended): a Video-category candidate is accepted iff its cleaned
title is non-empty and its URL passes the structural video-likeness test;
the title's content is otherwise ignored (`_is_video_content` never reads
it, and no boilerplate-keyword rejection exists in the video path).  The
structural test: a URL containing a video path segment with no query
string is accepted; a query string beginning right after a `search`-like
or video-path suffix is rejected; a URL with no video path segment is
always rejected. -/
theorem claim_C7 :
    (∀ (u t₁ t₂ : String), isVideoContent u t₁ = isVideoContent u t₂)
    ∧ isVideoContent "https://site.com/video/12345" "any title" = true
    ∧ isVideoContent "https://site.com/video/search?q=x" "any title" = false
    ∧ (∀ u t : String, (videoPaths.any fun p => pyIn p u) = false →
        isVideoContent u t = false)
    ∧ (∀ u t : String, u ≠ "" →
        (pyIn "bing.com" u && (pyIn "search" u || pyIn "videos/search" u)) = false →
        (videoPaths.any fun p => pyIn p u) = true →
        u.data.indexOf? '?' = none →
        isVideoContent u t = true) := by
  refine ⟨fun u t₁ t₂ => rfl, by decide, by decide, ?_, ?_⟩
  · intro u t h
    unfold isVideoContent
    split_ifs <;> simp_all
  · intro u t hne hbing hany hidx
    simp only [isVideoContent, hne, hbing, hany, hidx, if_true, if_false]
    simp [hne]

theorem claim_C7_counterexample :
    videoCandidateKept "联系我们" "https://site.com/video/12345" = true
    ∧ "联系我们" ∈ resourceIrrelevantKeywords := by
  constructor
  · decide
  · decide

theorem claim_C7_witness :
    isVideoContent "https://v.example/watch/123" "标题" = true :=
  claim_C7.2.2.2.2 "https://v.example/watch/123" "标题"
    (by decide) (by decide) (by decide) (by decide)

theorem dropWhile_append_singleton {p : Char → Bool} (c : Char) (hc : p c = false) :
    ∀ m : List Char, ∃ m', (m ++ [c]).dropWhile p = m' ++ [c] := by
  intro m
  induction m with
  | nil => exact ⟨[], by simp [List.dropWhile, hc]⟩
  | cons a m ih =>
    by_cases ha : p a = true
    · obtain ⟨m', hm'⟩ := ih
      exact ⟨m', by simp [List.dropWhile, ha, hm']⟩
    · exact ⟨a :: m, by simp [List.dropWhile, ha]⟩

theorem pyStartsWith_single_iff (href : String) (c : Char) :
    pyStartsWith href ⟨[c]⟩ = true ↔ ∃ rest, href.data = c :: rest := by
  constructor
  · intro h
    cases hd : href.data with
    | nil => rw [pyStartsWith, hd] at h; simp [listStartsWith] at h
    | cons a rest =>
      rw [pyStartsWith, hd] at h
      simp only [listStartsWith, String.data] at h
      have : c = a := by
        rcases Bool.and_eq_true _ _ |>.mp h with ⟨h1, _⟩
        simpa using h1
      exact ⟨rest, by rw [this]⟩
  · intro ⟨rest, h⟩
    rw [pyStartsWith, h]
    simp [listStartsWith]

theorem stripLower_head_slash (href : String) (h : pyStartsWith href "/" = true) :
    ∃ l, (pyStrip (pyLower href)).data = '/' :: l := by
  obtain ⟨rest, hdata⟩ := (pyStartsWith_single_iff href '/').mp h
  have hlc : pyLowerChar '/' = '/' := by decide
  have hsp : pyIsSpace '/' = false := by decide
  have hlow : (pyLower href).data = '/' :: rest.map pyLowerChar := by
    simp [pyLower, hdata, data_asString, hlc]
  rw [pyStrip, data_asString, pyStripList, hlow]
  rw [List.dropWhile_cons_of_neg (by simp [hsp])]
  have : ('/' :: rest.map pyLowerChar).reverse = (rest.map pyLowerChar).reverse ++ ['/'] := by
    simp
  rw [this]
  obtain ⟨m', hm'⟩ := dropWhile_append_singleton '/' hsp (rest.map pyLowerChar).reverse
  rw [hm']
  exact ⟨m'.reverse, by simp⟩

theorem isInvalidLink_false_of_slash (href : String)
    (h : pyStartsWith href "/" = true) (hlen : href.data.length > 1) :
    isInvalidLink href = false := by
  obtain ⟨l, hdata⟩ := stripLower_head_slash href h
  obtain ⟨rest, hd⟩ := (pyStartsWith_single_iff href '/').mp h
  have hne : ¬href = "" := by
    intro e
    rw [e] at hd
    simp at hd
  unfold isInvalidLink
  rw [if_neg hne]
  have hany : (invalidLinkPatterns.any fun p => pyStartsWith (pyStrip (pyLower href)) p) = false := by
    rw [List.any_eq_false]
    intro p hp
    fin_cases hp <;>
      simp [pyStartsWith, hdata, listStartsWith]
  have hstr : pyStrip (pyLower href) ≠ "#" := by
    intro e
    have := congrArg String.data e
    rw [hdata] at this
    simp at this
  have hstr2 : pyStrip (pyLower href) ≠ "javascript:void(0);" := by
    intro e
    have := congrArg String.data e
    rw [hdata] at this
    simp at this
  have hstr3 : pyStrip (pyLower href) ≠ "javascript:void(0)" := by
    intro e
    have := congrArg String.data e
    rw [hdata] at this
    simp at this
  have hlen1 : href.data.length ≠ 1 := by omega
  simp only [hany, Bool.false_eq_true, if_false, hstr, hstr2, hstr3, hlen1,
    decide_False, Bool.and_false, ite_false, Bool.or_self, ite_self]

theorem pyStartsWith_double_slash (href : String) (h : pyStartsWith href "//" = true) :
    ∃ t, href.data = '/' :: '/' :: t := by
  rw [pyStartsWith] at h
  cases hd : href.data with
  | nil => rw [hd] at h; simp [listStartsWith] at h
  | cons a t =>
    cases t with
    | nil => rw [hd] at h; simp [listStartsWith] at h
    | cons b t2 =>
      rw [hd] at h
      simp only [listStartsWith, String.data] at h
      rcases Bool.and_eq_true _ _ |>.mp h with ⟨h1, h2⟩
      rcases Bool.and_eq_true _ _ |>.mp h2 with ⟨h3, _⟩
      have ha : '/' = a := by simpa using h1
      have hb : '/' = b := by simpa using h3
      cases ha
      cases hb
      exact ⟨t2, by first | exact hd | rfl⟩

theorem normalizeUrl_plain (href : String) (pu : UrlParseResult)
    (hne : href ≠ "") (hinv : isInvalidLink href = false)
    (hbing : pyIn "bing.com" href = false)
    (hparse : pyUrlparse href = some pu)
    (hcond : (pyIn "bing.com" pu.netloc &&
      (pyIn "/ck/a" pu.path || pyIn "redirect" pu.path)) = false) :
    normalizeUrl href =
      if pyStartsWith href "//" then some ("https:" ++ href)
      else if pyStartsWith href "/" then some ("https://www.bing.com" ++ href)
      else some href := by
  unfold normalizeUrl
  rw [if_neg hne, if_neg (by simp [hinv])]
  simp only [hbing, Bool.false_eq_true, if_false, hparse, hcond]

/-- C6 (amended): URL normalization rejects empty strings and every link
whose lowered, stripped form starts with one of the invalid patterns
(`#`, `javascript:`, `mailto:`, `tel:`, `data:`, `about:`, `chrome:`,
`file:`, ...); it expands a protocol-relative `//host/...` link to
`https://host/...`; and it expands a root-relative `/path` link by always
prefixing `https://www.bing.com`, regardless of the originating
engine. -/
theorem claim_C6 :
    normalizeUrl "" = none
    ∧ (∀ href p, p ∈ invalidLinkPatterns →
        pyStartsWith (pyStrip (pyLower href)) p = true → normalizeUrl href = none)
    ∧ (∀ href pu, pyStartsWith href "//" = true →
        pyIn "bing.com" href = false → pyUrlparse href = some pu →
        pyIn "bing.com" pu.netloc = false →
        normalizeUrl href = some ("https:" ++ href))
    ∧ (∀ href pu, pyStartsWith href "/" = true → pyStartsWith href "//" = false →
        href.data.length > 1 → pyIn "bing.com" href = false →
        pyUrlparse href = some pu → pyIn "bing.com" pu.netloc = false →
        normalizeUrl href = some ("https://www.bing.com" ++ href)) := by
  refine ⟨by decide, ?_, ?_, ?_⟩
  · intro href p hp hsw
    by_cases he : href = ""
    · rw [he]; decide
    · have hinv : isInvalidLink href = true := by
        unfold isInvalidLink
        rw [if_neg he]
        have hany : (invalidLinkPatterns.any
            fun q => pyStartsWith (pyStrip (pyLower href)) q) = true :=
          List.any_eq_true.mpr ⟨p, hp, hsw⟩
        simp [hany]
      unfold normalizeUrl
      rw [if_neg he, if_pos hinv]
  · intro href pu hsw hbing hparse hnet
    obtain ⟨t, hd⟩ := pyStartsWith_double_slash href hsw
    have hne : href ≠ "" := by
      intro e; rw [e] at hd; simp at hd
    have hslash : pyStartsWith href "/" = true :=
      (pyStartsWith_single_iff href '/').mpr ⟨'/' :: t, hd⟩
    have hlen : href.data.length > 1 := by rw [hd]; simp
    have hinv := isInvalidLink_false_of_slash href hslash hlen
    rw [normalizeUrl_plain href pu hne hinv hbing hparse (by simp [hnet]), if_pos hsw]
  · intro href pu hslash hnsw hlen hbing hparse hnet
    obtain ⟨rest, hd⟩ := (pyStartsWith_single_iff href '/').mp hslash
    have hne : href ≠ "" := by
      intro e; rw [e] at hd; simp at hd
    have hinv := isInvalidLink_false_of_slash href hslash hlen
    rw [normalizeUrl_plain href pu hne hinv hbing hparse (by simp [hnet])]
    rw [if_neg (by simp [hnsw]), if_pos hslash]

theorem claim_C6_counterexample :
    normalizeUrl "/p" = some "https://www.bing.com/p"
    ∧ normalizeUrlSpecRootRelative "www.sogou.com" "/p" = "https://www.sogou.com/p"
    ∧ ("https://www.bing.com/p" : String) ≠ "https://www.sogou.com/p" :=
  ⟨by decide, by decide, by decide⟩

theorem claim_C6_witness :
    normalizeUrl "//x.com/a" = some "https://x.com/a" :=
  claim_C6.2.2.1 "//x.com/a" ⟨"", "x.com", "/a", "", "", ""⟩
    (by decide) (by decide) (by decide) (by decide)

end QingYuan
